import Mathlib

/-!
Verification of the hound source-code search service (Go) against its
natural-language specification.  The Go code of `api/api.go` and the
searcher package (`src/unnamed/part_001`) is shallowly embedded below:
pure helpers become Lean functions, Go maps become association lists,
channels become bounded lists, and external collaborators (the `index`
and `vcs` packages, the file system, the wall clock) become explicit
parameters of the functions that consult them.
-/

namespace Hound

/-! ## String helpers

Go's `strings` package functions are embedded over `List Char` so that
everything reduces structurally (Lean's own `String` loops use
well-founded recursion, which the kernel does not unfold).
-/

/-- Split a character list at every occurrence of `sep`
(Go `strings.Split` with a one-character separator; always returns at
least one piece). -/
def splitCh (sep : Char) : List Char → List (List Char)
  | [] => [[]]
  | c :: rest =>
    match splitCh sep rest with
    | [] => [[]]
    | h :: t => if c = sep then [] :: h :: t else (c :: h) :: t

/-- Go `strings.TrimSpace` on the character list: drop leading and
trailing whitespace.  (Go trims by `unicode.IsSpace`; the embedded
corpus only involves ASCII whitespace, covered by `Char.isWhitespace`.) -/
def trimChars (cs : List Char) : List Char :=
  ((cs.dropWhile Char.isWhitespace).reverse.dropWhile Char.isWhitespace).reverse

/-- Go `strings.TrimSpace`. -/
def trimSpace (s : String) : String :=
  String.mk (trimChars s.data)

/-- Go `strings.ToLower` (ASCII). -/
def toLowerStr (s : String) : String :=
  String.mk (s.data.map Char.toLower)

/-- Decimal value of a digit string (already validated). -/
def digitsToNat (cs : List Char) : Nat :=
  cs.foldl (fun a c => a * 10 + (c.toNat - 48)) 0

/-- Go `strconv.ParseUint(s, 10, bitSize)`.  Succeeds iff `s` is a
non-empty all-digit string whose value fits in `bitSize` bits; every
error (empty string, stray character, sign, overflow) makes the Go
callers take their error path, modelled as `none`. -/
def goParseUint (s : String) (bitSize : Nat) : Option Nat :=
  let cs := s.data
  if cs.isEmpty then none
  else if cs.all Char.isDigit then
    let n := digitsToNat cs
    if n < 2 ^ bitSize then some n else none
  else none

/-- Insert a string into an ascending list (helper for `sortStrings`). -/
def insertStr (x : String) : List String → List String
  | [] => [x]
  | y :: ys => if x < y then x :: y :: ys else y :: insertStr x ys

/-- Go `sort.Strings`: ascending lexicographic sort. -/
def sortStrings (l : List String) : List String :=
  l.foldr insertStr []

/-! ## Association-list maps

Go's `map[string]V` is embedded as an association list with unique
keys; `lookupA` is `m[k]` returning the pointer-or-nil as an `Option`,
`mapInsert` is `m[k] = v`, and `assocD` is map access with Go's
zero-value default. -/

/-- Go map read `m[k]`: `none` plays the role of the `nil` pointer. -/
def lookupA {α : Type} : List (String × α) → String → Option α
  | [], _ => none
  | (k', v) :: rest, k => if k' = k then some v else lookupA rest k

/-- Go map write `m[k] = v` (overwrite or append). -/
def mapInsert {α : Type} : List (String × α) → String → α → List (String × α)
  | [], k, v => [(k, v)]
  | (k', v') :: rest, k, v =>
    if k' = k then (k, v) :: rest else (k', v') :: mapInsert rest k v

/-- Go map read with the type's zero value for a missing key. -/
def assocD {α : Type} : List (String × α) → String → α → α
  | [], _, d => d
  | (k', v) :: rest, k, d => if k' = k then v else assocD rest k d

/-! ## Data model

`config.Repo` itself is not under `src/`; only its accessors are
called.  Modelled from the spec: the repository descriptor carries the
source URL, the URL-pattern template, the flags
{poll-enabled, push-enabled, hidden} and the last-observed revision
(spec §3 "Repository descriptor", §6 per-repository keys
`enable-poll-updates`, `enable-push-updates`, `hidden`). -/
structure Repo where
  url : String
  urlPattern : String
  pushUpdatesEnabled : Bool
  pollUpdatesEnabled : Bool
  hidden : Bool
  revision : String
deriving DecidableEq

def emptyRepo : Repo :=
  { url := "", urlPattern := "", pushUpdatesEnabled := false
    pollUpdatesEnabled := false, hidden := false, revision := "" }

/-- The searcher state visible to the API layer (`searcher.Searcher`):
the repository descriptor (`Repo *config.Repo`, nil-able), the
capacity-1 update mailbox (`updateCh chan time.Time` with buffer 1,
embedded as a list of at most one timestamp), and the virtual-repo map
`vrepos map[string]string` of a hidden repository. -/
structure Searcher where
  repo : Option Repo
  updateCh : List Nat
  vrepos : List (String × String)
deriving DecidableEq

/-- `Searcher.IsHidden`.  The Go method dereferences `s.Repo`
unconditionally (nil would panic); the handlers only ever see
searchers built by `newSearcher`, which stores a descriptor, so the
nil case is given the zero value `false` here. -/
def Searcher.IsHidden (s : Searcher) : Bool :=
  (s.repo.map Repo.hidden).getD false

/-- `Searcher.GetVRepos`: the keys of the virtual-repo map. -/
def Searcher.GetVRepos (s : Searcher) : List String :=
  s.vrepos.map Prod.fst

/-- `Searcher.GetVRepoRev`: map read with zero value `""`. -/
def Searcher.GetVRepoRev (s : Searcher) (repo : String) : String :=
  assocD s.vrepos repo ""

/-- The live searcher map `map[string]*searcher.Searcher`. -/
abbrev SearcherMap := List (String × Searcher)

/-- Non-blocking send on a Go channel with buffer size `c`: enqueue
iff the buffer has room, otherwise drop (the `select`/`default`
pattern). -/
def trySend (c : Nat) (buf : List Nat) (t : Nat) : List Nat :=
  if buf.length < c then buf ++ [t] else buf

/-- `Searcher.Update` (src/unnamed/part_001 lines 163-181): nil
descriptor returns true; push-updates disabled returns false without
touching the mailbox; otherwise the current time is try-sent into the
capacity-1 mailbox and true is returned. -/
def Searcher.Update (s : Searcher) (now : Nat) : Bool × Searcher :=
  match s.repo with
  | none => (true, s)
  | some r =>
    if r.pushUpdatesEnabled = false then (false, s)
    else (true, { s with updateCh := trySend 1 s.updateCh now })

/-- Repeated `Update` calls (the states threaded through N calls of
one poll cycle; the booleans returned are dropped). -/
def updateMany (s : Searcher) (ts : List Nat) : Searcher :=
  ts.foldl (fun st t => (st.Update t).2) s

/-! ## The API layer (`src/api/api.go`) -/

def defaultLinesOfContext : Nat := 2
def maxLinesOfContext : Nat := 20
def defaultFilesOpened : Nat := 5

/-- `parseAsBool` (api.go lines 130-133). -/
def parseAsBool (v : String) : Bool :=
  let v := toLowerStr v
  v = "true" || v = "1" || v = "fosho"

/-- `parseAsRepoList` (api.go lines 135-170).  A trimmed value of
`"*"` or `""` yields every key of the searcher map.  Otherwise the
value is split on commas; names present in the map are collected in
order, names absent from the map are collected as virtual selectors
and, when at least one is present, every hidden repository of the map
is appended to the selection.  The virtual list is sorted. -/
def parseAsRepoList (v : String) (idx : SearcherMap) : List String × List String :=
  let v := trimSpace v
  if v = "*" ∨ v = "" then (idx.map Prod.fst, [])
  else
    let parts := (splitCh ',' v.data).map String.mk
    let repos := parts.filter fun r => (lookupA idx r).isSome
    let vrepos := parts.filter fun r => (lookupA idx r).isNone
    let repos :=
      if vrepos.isEmpty then repos
      else repos ++ (idx.filter fun p => p.2.IsHidden).map Prod.fst
    (repos, sortStrings vrepos)

/-- `parseAsUintValue` (api.go lines 172-184): parse failures give the
default; a value above a nonzero `mx` gives `mx`; a value below a
nonzero `mn` also gives `mx` (sic, the source returns `max` there). -/
def parseAsUintValue (sv : String) (mn mx df : Nat) : Nat :=
  match goParseUint sv 54 with
  | none => df
  | some iv =>
    if mx ≠ 0 ∧ mx < iv then mx
    else if mn ≠ 0 ∧ iv < mn then mx
    else iv

/-- `parseRangeInt` (api.go lines 186-198): empty or unparsable input
leaves the output at 0. -/
def parseRangeInt (v : String) : Nat :=
  if v = "" then 0
  else match goParseUint v 64 with
       | none => 0
       | some vi => vi

/-- `parseRangeValue` (api.go lines 200-210): split at the first
colon; no colon yields (0, 0). -/
def parseRangeValue (rv : String) : Nat × Nat :=
  match splitCh ':' rv.data with
  | [] => (0, 0)
  | [_] => (0, 0)
  | b :: rest =>
    (parseRangeInt (String.mk b),
     parseRangeInt (String.intercalate ":" (rest.map String.mk)))

/-- `index.SearchResponse` as consumed by `searchAll`: the nil-able
match slice, per-file counters, the revision, and the three
virtual-repo maps of a hidden repository's response.  Match entries
themselves are opaque (numeric ids). -/
structure SearchResponse where
  Matches : Option (List Nat)
  FilesWithMatch : Nat
  Revision : String
  FilesOpened : Nat
  VMatches : List (String × List Nat)
  VFilesWithMatch : List (String × Nat)
  VRevision : List (String × String)
deriving DecidableEq

/-- The collection loop of `searchAll` (api.go lines 92-122) over the
per-repository results in their channel-arrival order.  The first
errored result aborts the whole aggregation, discarding the
accumulator.  A successful result with neither matches nor virtual
matches is skipped; a hidden repository's virtual matches are sharded
into per-virtual-repo responses; otherwise the response is stored
under its repository name.  `filesOpened` is accumulated alongside.
(The Go code also nils out the consumed `V*` fields of each received
response; that write is invisible afterwards and is not modelled.) -/
def searchAllLoop :
    List (String × Except String SearchResponse) →
    List (String × SearchResponse) → Nat →
    Except String (List (String × SearchResponse) × Nat)
  | [], res, fo => .ok (res, fo)
  | (_, .error e) :: _, _, _ => .error e
  | (repo, .ok r) :: rest, res, fo =>
    if r.Matches = none ∧ r.VMatches = [] then searchAllLoop rest res fo
    else
      let res' :=
        if 0 < r.VMatches.length then
          r.VMatches.foldl
            (fun acc kv =>
              mapInsert acc kv.1
                { Matches := some kv.2
                  FilesWithMatch := assocD r.VFilesWithMatch kv.1 0
                  Revision := assocD r.VRevision kv.1 ""
                  FilesOpened := 0, VMatches := [], VFilesWithMatch := []
                  VRevision := [] })
            res
        else if r.Matches ≠ none then mapInsert res repo r
        else res
      searchAllLoop rest res' (fo + r.FilesOpened)

/-- `searchAll` (api.go lines 62-127).  The goroutine fan-out and the
buffered channel are embedded by taking the list of per-repository
search outcomes in arrival order (one entry per active repository);
the wall-clock duration output is not modelled. -/
def searchAll (resps : List (String × Except String SearchResponse)) :
    Except String (List (String × SearchResponse) × Nat) :=
  searchAllLoop resps [] 0

/-- `checkReady`'s readiness test (api.go lines 221-228): the global
searcher map is `none` before `SetSearchers` runs (the Go `nil` map)
and `some m` afterwards. -/
def checkReady (g : Option SearcherMap) : Bool :=
  match g with
  | none => false
  | some m => if m.length ≤ 0 then false else true

/-- The not-ready error body written by `checkReady`. -/
def notReadyMsg : String := "Server is not ready, please wait..."

/-- The JSON replies an endpoint can produce: `jsonError` is
`writeError` (status plus `{Error: msg}`), `success` is a payload
written with the given status. -/
inductive ApiOutcome (α : Type) where
  | jsonError (status : Nat) (msg : String)
  | success (status : Nat) (val : α)
deriving DecidableEq

/-- The `/api/v1/repos` handler (api.go lines 232-253): after the
readiness check, hidden searchers contribute one entry per virtual
repository (carrying the searcher's URL pattern and the virtual
revision, all other descriptor fields zero), other searchers
contribute their descriptor under their own name. -/
def reposHandler (g : Option SearcherMap) : ApiOutcome (List (String × Option Repo)) :=
  if checkReady g = false then .jsonError 200 notReadyMsg
  else
    let m := g.getD []
    .success 200 <| m.foldl
      (fun res p =>
        if p.2.IsHidden then
          p.2.GetVRepos.foldl
            (fun res v =>
              mapInsert res v (some
                { emptyRepo with
                    urlPattern := (p.2.repo.getD emptyRepo).urlPattern
                    revision := p.2.GetVRepoRev v }))
            res
        else mapInsert res p.1 p.2.repo)
      []

/-- `index.SearchOptions` as filled in by the search handler. -/
structure SearchOptions where
  Offset : Nat
  Limit : Nat
  FileRegexp : String
  IgnoreCase : Bool
  LinesOfContext : Nat
deriving DecidableEq

/-- The form values of a `/api/v1/search` request (`r.FormValue`
returns `""` for an absent parameter). -/
structure SearchForm where
  stats : String
  repos : String
  q : String
  rng : String
  files : String
  i : String
  ctx : String
deriving DecidableEq

/-- The option-parsing prefix of the search handler (api.go lines
260-277): the resolved repository selection, the range, the flags,
the clamped lines-of-context, and the per-repo limit override to
`defaultFilesOpened` when the selection holds more than one
repository. -/
def searchParsedOpts (m : SearcherMap) (f : SearchForm) :
    SearchOptions × List String × List String :=
  let rv := parseAsRepoList f.repos m
  let rng := parseRangeValue f.rng
  let opt : SearchOptions :=
    { Offset := rng.1, Limit := rng.2
      FileRegexp := f.files
      IgnoreCase := parseAsBool f.i
      LinesOfContext :=
        parseAsUintValue f.ctx 0 maxLinesOfContext defaultLinesOfContext }
  let opt := if 1 < rv.1.length then { opt with Limit := defaultFilesOpened } else opt
  (opt, rv.1, rv.2)

/-- The stats block (`Duration` is wall-clock time, modelled as 0). -/
structure Stats where
  FilesOpened : Nat
  Duration : Nat
deriving DecidableEq

/-- The `/api/v1/search` handler (api.go lines 255-309).  `responses`
stands for the per-repository `Search` outcomes collected from the
fan-out channel in arrival order.  An empty trimmed query and a
failed aggregation are both written as errors with HTTP 200. -/
def searchHandler (g : Option SearcherMap) (f : SearchForm)
    (responses : List (String × Except String SearchResponse)) :
    ApiOutcome (List (String × SearchResponse) × Option Stats) :=
  if checkReady g = false then .jsonError 200 notReadyMsg
  else
    let m := g.getD []
    let stats := parseAsBool f.stats
    let _opts := searchParsedOpts m f
    let query := trimSpace f.q
    if query.length ≤ 0 then .jsonError 200 "No query"
    else
      match searchAll responses with
      | .error e => .jsonError 200 e
      | .ok (res, fo) =>
        .success 200 (res, if stats then some { FilesOpened := fo, Duration := 0 } else none)

/-- The `/api/v1/excludes` handler (api.go lines 311-337).  The
excluded-files JSON of a searcher comes from disk; it is supplied as
the environment function `getExcluded` (searcher, scope ↦ body).  The
Go code binary-searches the hidden searcher's virtual list for the
requested name; embedded as a membership test. -/
def excludesHandler (g : Option SearcherMap) (repo : String)
    (getExcluded : Searcher → String → String) : ApiOutcome String :=
  if checkReady g = false then .jsonError 200 notReadyMsg
  else
    let m := g.getD []
    match lookupA m repo with
    | some s => .success 200 (getExcluded s "")
    | none =>
      match m.find? fun p => p.2.IsHidden && p.2.GetVRepos.contains repo with
      | some p => .success 200 (getExcluded p.2 repo)
      | none => .success 200 "[]"

/-- The per-repository loop of the `/api/v1/update` handler (api.go
lines 353-371): a name missing from the map yields 404, a searcher
whose `Update` returns false yields 403, and a completed loop yields
`"ok"`.  (`Update`'s mailbox side effect does not influence the reply
and the states are not threaded here.) -/
def updateLoop (m : SearcherMap) : List String → ApiOutcome String
  | [] => .success 200 "ok"
  | name :: rest =>
    match lookupA m name with
    | none => .jsonError 404 ("No such repository: " ++ name)
    | some s =>
      if (s.Update 0).1 = false then
        .jsonError 403 ("Push updates are not enabled for repository " ++ name)
      else updateLoop m rest

/-- The `/api/v1/update` handler (api.go lines 339-372): readiness
check, POST check, then the update loop over the resolved repository
selection. -/
def updateHandler (g : Option SearcherMap) (method reposV : String) : ApiOutcome String :=
  if checkReady g = false then .jsonError 200 notReadyMsg
  else if method ≠ "POST" then .jsonError 405 "Method Not Allowed"
  else
    let m := g.getD []
    updateLoop m (parseAsRepoList reposV m).1

/-! ## Index directory manager (src/unnamed/part_001) -/

/-- `index.IndexRef`: (url, revision, directory).  The `index`
package is not under `src/`; modelled from the spec: "Index
reference.  A descriptor pinned to one on-disk index directory,
recording the repository URL, the revision it was built for, and the
directory path" (spec §3). -/
structure IndexRef where
  Url : String
  Rev : String
  dir : String
deriving DecidableEq

/-- The found set of startup index references (`foundRefs`,
src/unnamed/part_001 lines 54-57).  `refs` holds the *pointers*
appended by `findExistingRefs`, so an entry may be `none` (Go `nil`);
`claimed` is the claimed set. -/
structure foundRefs where
  refs : List (Option IndexRef)
  claimed : List IndexRef
deriving DecidableEq

/-- `findExistingRefs` (src/unnamed/part_001 lines 251-267).  The
`idx-*` glob and `index.Read` are environment inputs: `dirs` is the
list of matched directories, and `read` is `index.Read`, which —
modelled from the spec ("attempts to read each as an index reference
(manifest header only)") — returns no reference for an unreadable
directory.  The source appends the result of every read, error or
not: `r, _ := index.Read(dir); refs = append(refs, r)`. -/
def findExistingRefs (read : String → Option IndexRef) (dirs : List String) : foundRefs :=
  { refs := dirs.map read, claimed := [] }

/-- Outcome of `foundRefs.find`: either a reference (or Go `nil` for
no hit), or the nil-pointer dereference the Go loop performs when it
reaches a `nil` entry and evaluates `ref.Url`. -/
inductive FindResult where
  | found (r : Option IndexRef)
  | nilDeref
deriving DecidableEq

/-- `foundRefs.find` (src/unnamed/part_001 lines 75-82): scan the
found set for a matching (url, rev); dereferencing a `nil` entry is
the Go panic, surfaced as `FindResult.nilDeref`. -/
def findRef (url rev : String) : List (Option IndexRef) → FindResult
  | [] => .found none
  | none :: _ => .nilDeref
  | some ref :: rest =>
    if ref.Url = url ∧ ref.Rev = rev then .found (some ref) else findRef url rev rest

/-- `foundRefs.claim` (src/unnamed/part_001 lines 88-90). -/
def claimRef (r : foundRefs) (ref : IndexRef) : foundRefs :=
  { r with claimed := ref :: r.claimed }

/-! ## The refresh cycle (src/unnamed/part_001) -/

/-- The outcomes of the external collaborators consulted by one
refresh cycle: `wd.PullOrClone` (the VCS driver), `buildAndOpenIndex`
for a given new revision (the `index` package), and whether
`oldIdx.Destroy()` inside `swapIndexes` succeeds.  Indexes themselves
are opaque ids. -/
structure VcsEnv where
  pullOrClone : Except String String
  build : String → Except String Nat
  destroyOk : Bool

/-- The searcher state a refresh cycle can touch: the live index
(`s.idx`, swapped by `swapIndexes`) and the descriptor's revision
(`s.Repo.Revision`). -/
structure RefreshState where
  idx : Nat
  revision : String
deriving DecidableEq

/-- `updateAndReindex` (src/unnamed/part_001 lines 436-488), given
the loop's current `rev`.  A pull error, an unchanged revision, or a
build error return `(rev, false)` with the state untouched.
Otherwise the descriptor revision is set, the new index is swapped
in, and on a destroy error inside the swap the function still returns
`(rev, false)` (with the new index already live — as the source
does). -/
def updateAndReindex (env : VcsEnv) (st : RefreshState) (rev : String) :
    String × Bool × RefreshState :=
  match env.pullOrClone with
  | .error _ => (rev, false, st)
  | .ok newRev =>
    if newRev = rev then (rev, false, st)
    else
      match env.build newRev with
      | .error _ => (rev, false, st)
      | .ok idx =>
        let st' : RefreshState := { idx := idx, revision := newRev }
        if env.destroyOk then (newRev, true, st') else (rev, false, st')

/-- One iteration of the refresh loop after `waitForUpdate` returns
without a shutdown (src/unnamed/part_001 lines 568-592): run
`updateAndReindex`; on `ok` adopt the new revision as the loop's
`rev`, otherwise `continue` with the old one. -/
def refreshStep (env : VcsEnv) (st : RefreshState) (rev : String) :
    String × RefreshState :=
  let r := updateAndReindex env st rev
  if r.2.1 then (r.1, r.2.2) else (rev, r.2.2)

/-! ## Concrete fixtures (used to evaluate the definitions) -/

/-- A push-enabled, non-hidden repository descriptor. -/
def exRepoPush : Repo := { emptyRepo with pushUpdatesEnabled := true }

/-- A hidden repository descriptor. -/
def exRepoHidden : Repo :=
  { emptyRepo with hidden := true, urlPattern := "up", pushUpdatesEnabled := true }

/-- A live push-enabled searcher with an empty mailbox. -/
def exSearcherA : Searcher := { repo := some exRepoPush, updateCh := [], vrepos := [] }

/-- A live searcher with push updates disabled. -/
def exSearcherB : Searcher := { repo := some emptyRepo, updateCh := [], vrepos := [] }

/-- A live hidden searcher with one virtual repository. -/
def exSearcherH : Searcher :=
  { repo := some exRepoHidden, updateCh := [], vrepos := [("d/p", "r1")] }

def exMapA : SearcherMap := [("a", exSearcherA)]
def exMapAB : SearcherMap := [("a", exSearcherA), ("b", exSearcherB)]
def exMapH : SearcherMap := [("h", exSearcherH)]

/-- A search form with the given repos, range and ctx values. -/
def exForm (reposV rng ctx : String) : SearchForm :=
  { stats := "", repos := reposV, q := "x", rng := rng, files := "", i := "", ctx := ctx }

/-- An `index.Read` that fails on every directory. -/
def unreadableRead : String → Option IndexRef := fun _ => none

/-- A refresh environment whose VCS pull fails. -/
def exEnvPullErr : VcsEnv :=
  { pullOrClone := .error "vcs pull error", build := fun _ => .ok 1, destroyOk := true }

/-- A successful one-match search response for fixtures. -/
def exResp : SearchResponse :=
  { Matches := some [1], FilesWithMatch := 1, Revision := "r", FilesOpened := 3
    VMatches := [], VFilesWithMatch := [], VRevision := [] }

/-- One successfully answered repository, as an arrival list. -/
def exResps : List (String × Except String SearchResponse) :=
  [("a", Except.ok exResp)]

/-! ## Helper lemmas -/

theorem lookupA_isSome_of_mem_keys {m : SearcherMap} {k : String}
    (h : k ∈ m.map Prod.fst) : (lookupA m k).isSome := by
  induction m with
  | nil => simp at h
  | cons p rest ih =>
    cases p with
    | mk k' s =>
      rw [List.map_cons, List.mem_cons] at h
      by_cases hk : k' = k
      · simp [lookupA, hk]
      · rcases h with h | h
        · exact absurd h.symm hk
        · simpa [lookupA, hk] using ih h

theorem mem_parseAsRepoList_isSome {m : SearcherMap} {v name : String}
    (h : name ∈ (parseAsRepoList v m).1) : (lookupA m name).isSome := by
  simp only [parseAsRepoList] at h
  by_cases hv : trimSpace v = "*" ∨ trimSpace v = ""
  · rw [if_pos hv] at h
    exact lookupA_isSome_of_mem_keys h
  · rw [if_neg hv] at h
    dsimp only at h
    set parts := (splitCh ',' (trimSpace v).data).map String.mk with hparts
    by_cases he : (parts.filter fun r => (lookupA m r).isNone).isEmpty
    · rw [if_pos he] at h
      exact (List.mem_filter.mp h).2
    · rw [if_neg he] at h
      rcases List.mem_append.mp h with h | h
      · exact (List.mem_filter.mp h).2
      · rcases List.mem_map.mp h with ⟨p, hp, hpk⟩
        exact lookupA_isSome_of_mem_keys
          (hpk ▸ List.mem_map_of_mem Prod.fst (List.mem_of_mem_filter hp))

theorem updateLoop_jsonError_403 {m : SearcherMap} {names : List String}
    (h : ∀ n ∈ names, (lookupA m n).isSome) :
    ∀ st msg, updateLoop m names = .jsonError st msg → st = 403 := by
  induction names with
  | nil => intro st msg hc; simp [updateLoop] at hc
  | cons n rest ih =>
    intro st msg hc
    obtain ⟨s, hs⟩ := Option.isSome_iff_exists.mp (h n (List.mem_cons_self n rest))
    rw [updateLoop, hs] at hc
    dsimp only at hc
    by_cases hu : (s.Update 0).1 = false
    · rw [if_pos hu] at hc
      cases hc
      rfl
    · rw [if_neg hu] at hc
      exact ih (fun x hx => h x (List.mem_cons_of_mem _ hx)) st msg hc

theorem updateLoop_ok_iff {m : SearcherMap} {names : List String}
    (h : ∀ n ∈ names, (lookupA m n).isSome) :
    updateLoop m names = .success 200 "ok" ↔
      ∀ n ∈ names, ∀ s, lookupA m n = some s → (s.Update 0).1 = true := by
  induction names with
  | nil => simp [updateLoop]
  | cons n rest ih =>
    obtain ⟨s, hs⟩ := Option.isSome_iff_exists.mp (h n (List.mem_cons_self n rest))
    have ihr := ih fun x hx => h x (List.mem_cons_of_mem _ hx)
    rw [updateLoop, hs]
    dsimp only
    constructor
    · intro hc x hx s' hs'
      by_cases hu : (s.Update 0).1 = false
      · rw [if_pos hu] at hc; cases hc
      · rw [if_neg hu] at hc
        rcases List.mem_cons.mp hx with rfl | hx'
        · rw [hs] at hs'
          cases hs'
          exact Bool.not_eq_false _ |>.mp hu
        · exact ihr.mp hc x hx' s' hs'
    · intro hall
      have hu : (s.Update 0).1 = true := hall n (List.mem_cons_self n rest) s hs
      rw [if_neg (by simp [hu])]
      exact ihr.mpr fun x hx => hall x (List.mem_cons_of_mem _ hx)

theorem updateHandler_post_ready {m : SearcherMap} {reposV : String}
    (hready : ¬ m.length ≤ 0) :
    updateHandler (some m) "POST" reposV =
      updateLoop m (parseAsRepoList reposV m).1 := by
  have hcr : checkReady (some m) = true := by
    unfold checkReady
    dsimp only
    rw [if_neg hready]
  unfold updateHandler
  rw [hcr]
  simp

theorem update_fst_eq_false_iff {s : Searcher} {r : Repo} {now : Nat}
    (h : s.repo = some r) :
    (s.Update now).1 = false ↔ r.pushUpdatesEnabled = false := by
  unfold Searcher.Update
  rw [h]
  by_cases hp : r.pushUpdatesEnabled = false
  · simp [hp]
  · simp [hp]

theorem update_preserves_mailbox_bound (s : Searcher) (t : Nat)
    (h : s.updateCh.length ≤ 1) : ((s.Update t).2).updateCh.length ≤ 1 := by
  unfold Searcher.Update
  cases hr : s.repo with
  | none => simpa using h
  | some r =>
    by_cases hp : r.pushUpdatesEnabled = false
    · simpa [hp] using h
    · simp only [hp, if_false]
      show (trySend 1 s.updateCh t).length ≤ 1
      unfold trySend
      by_cases hl : s.updateCh.length < 1
      · rw [if_pos hl, List.length_append]
        simp only [List.length_cons, List.length_nil]
        omega
      · rw [if_neg hl]
        exact h

theorem updateMany_mailbox_bound (ts : List Nat) :
    ∀ s : Searcher, s.updateCh.length ≤ 1 → (updateMany s ts).updateCh.length ≤ 1 := by
  induction ts with
  | nil => intro s h; simpa [updateMany] using h
  | cons t ts ih =>
    intro s h
    have : updateMany s (t :: ts) = updateMany (s.Update t).2 ts := rfl
    rw [this]
    exact ih _ (update_preserves_mailbox_bound s t h)

theorem searchAllLoop_first_error {repo e : String}
    {rest : List (String × Except String SearchResponse)} :
    ∀ pre, (∀ p ∈ pre, ∃ r, p.2 = Except.ok r) →
    ∀ acc fo, searchAllLoop (pre ++ (repo, Except.error e) :: rest) acc fo =
      Except.error e := by
  intro pre
  induction pre with
  | nil => intro _ acc fo; rfl
  | cons p pre ih =>
    intro hpre acc fo
    obtain ⟨r, hr⟩ := hpre p (List.mem_cons_self p pre)
    cases p with
    | mk pn pe =>
      cases hr
      rw [List.cons_append, searchAllLoop]
      have ihp := ih fun q hq => hpre q (List.mem_cons_of_mem _ hq)
      by_cases hempty : r.Matches = none ∧ r.VMatches = []
      · rw [if_pos hempty]
        exact ihp acc fo
      · rw [if_neg hempty]
        exact ihp _ _

theorem searchParsedOpts_loc (m : SearcherMap) (f : SearchForm) :
    (searchParsedOpts m f).1.LinesOfContext =
      parseAsUintValue f.ctx 0 maxLinesOfContext defaultLinesOfContext := by
  unfold searchParsedOpts
  dsimp only
  split <;> rfl

/-! ## Claims -/

/-- C1: the claim that `parseAsRepoList "*"` (or `""`) returns only the
non-hidden live repository names is false: with a single hidden live
repository, the selection contains its name while the non-hidden key
set is empty. -/
theorem C1_star_counterexample :
    exSearcherH.IsHidden = true
    ∧ (parseAsRepoList "*" exMapH).1 = ["h"]
    ∧ (parseAsRepoList "*" exMapH).1 ≠
        (exMapH.filter fun p => !p.2.IsHidden).map Prod.fst := by
  refine ⟨rfl, rfl, ?_⟩
  decide

/-- C1 (amended): for a trimmed `repos` value of `"*"` or the empty
string, `parseAsRepoList` returns the names of ALL live repositories
— hidden ones included — and an empty virtual-selector list. -/
theorem C1_star_selects_all_names (idx : SearcherMap) (v : String)
    (h : trimSpace v = "*" ∨ trimSpace v = "") :
    parseAsRepoList v idx = (idx.map Prod.fst, []) := by
  simp only [parseAsRepoList]
  rw [if_pos h]

theorem C1_star_selects_all_names_witness :
    (trimSpace "*" = "*" ∨ trimSpace "*" = "")
    ∧ parseAsRepoList "*" exMapH = (exMapH.map Prod.fst, []) :=
  ⟨Or.inl rfl, C1_star_selects_all_names exMapH "*" (Or.inl rfl)⟩

/-- C2: the claim that a POST to /api/v1/update naming a repository
that is not live yields HTTP 404 is false: `parseAsRepoList` filters
unknown names out of the selection (treating them as virtual
selectors), so with one live push-enabled repository and no hidden
ones the handler answers `"ok"`. -/
theorem C2_unknown_repo_counterexample :
    lookupA exMapA "unknown" = none
    ∧ updateHandler (some exMapA) "POST" "unknown" = .success 200 "ok" := by
  refine ⟨rfl, ?_⟩
  decide

/-- C2 (amended): a name that is not live never produces a 404 — the
handler's "No such repository" branch is unreachable because the
resolved selection only contains live names; every error reply of a
ready POST has status 403, and the reply is `"ok"` iff every searcher
of the resolved selection reports push updates enabled. -/
theorem C2_update_handler_contract (m : SearcherMap) (reposV : String)
    (hready : ¬ m.length ≤ 0) :
    (∀ st msg, updateHandler (some m) "POST" reposV = .jsonError st msg → st = 403)
    ∧ (updateHandler (some m) "POST" reposV = .success 200 "ok" ↔
        ∀ name ∈ (parseAsRepoList reposV m).1, ∀ s,
          lookupA m name = some s → (s.Update 0).1 = true) := by
  have hmem : ∀ n ∈ (parseAsRepoList reposV m).1, (lookupA m n).isSome :=
    fun n hn => mem_parseAsRepoList_isSome hn
  constructor
  · intro st msg hc
    rw [updateHandler_post_ready hready] at hc
    exact updateLoop_jsonError_403 hmem st msg hc
  · rw [updateHandler_post_ready hready]
    exact updateLoop_ok_iff hmem

theorem C2_update_handler_contract_witness :
    (¬ exMapA.length ≤ 0)
    ∧ (updateHandler (some exMapA) "POST" "a" = .success 200 "ok" ↔
        ∀ name ∈ (parseAsRepoList "a" exMapA).1, ∀ s,
          lookupA exMapA name = some s → (s.Update 0).1 = true) :=
  ⟨by decide, (C2_update_handler_contract exMapA "a" (by decide)).2⟩

/-- C3: the claim that the per-repo limit used for a multi-repository
selection is min(client limit, 5) is false: a client limit of 2
(`rng=0:2`) over a two-repository selection is replaced by 5, not
preserved. -/
theorem C3_limit_counterexample :
    (searchParsedOpts exMapAB (exForm "*" "0:2" "")).2.1.length = 2
    ∧ (parseRangeValue "0:2").2 = 2
    ∧ (searchParsedOpts exMapAB (exForm "*" "0:2" "")).1.Limit = 5
    ∧ (searchParsedOpts exMapAB (exForm "*" "0:2" "")).1.Limit ≠
        Nat.min (parseRangeValue "0:2").2 defaultFilesOpened := by
  refine ⟨rfl, rfl, rfl, ?_⟩
  decide

/-- C3 (amended): when the resolved selection holds more than one
repository, the search handler sets the per-repo limit to
`defaultFilesOpened` (5) unconditionally, discarding the
client-requested value. -/
theorem C3_multi_repo_limit_overwritten (m : SearcherMap) (f : SearchForm)
    (h : 1 < (parseAsRepoList f.repos m).1.length) :
    (searchParsedOpts m f).1.Limit = defaultFilesOpened := by
  unfold searchParsedOpts
  dsimp only
  rw [if_pos h]

theorem C3_multi_repo_limit_overwritten_witness :
    1 < (parseAsRepoList (exForm "*" "0:2" "").repos exMapAB).1.length
    ∧ (searchParsedOpts exMapAB (exForm "*" "0:2" "")).1.Limit = defaultFilesOpened :=
  ⟨by decide, C3_multi_repo_limit_overwritten exMapAB _ (by decide)⟩

/-- C4: the claim (and the spec) says unreadable `idx-*` entries are
silently discarded and never enter the found set — but
`findExistingRefs` appends the result of `index.Read` even when it is
nil, so an unreadable entry's nil reference does appear in the set,
and the subsequent `find` dereferences it (a nil-pointer panic in
Go) instead of returning the "no such ref" answer its own contract
promises. -/
theorem C4_unreadable_ref_not_discarded :
    (findExistingRefs unreadableRead ["data/idx-4a5b6c7d"]).refs = [none]
    ∧ findRef "url" "rev"
        (findExistingRefs unreadableRead ["data/idx-4a5b6c7d"]).refs = .nilDeref :=
  ⟨rfl, rfl⟩

/-- C5: when the VCS pull fails, `updateAndReindex` returns the prior
revision with `ok = false` and the searcher state (live index,
descriptor revision) untouched, and the refresh loop keeps its `rev`
for the next cycle. -/
theorem C5_pull_error_keeps_state (env : VcsEnv) (st : RefreshState) (rev msg : String)
    (h : env.pullOrClone = .error msg) :
    updateAndReindex env st rev = (rev, false, st)
    ∧ refreshStep env st rev = (rev, st) := by
  have h1 : updateAndReindex env st rev = (rev, false, st) := by
    unfold updateAndReindex
    rw [h]
  refine ⟨h1, ?_⟩
  unfold refreshStep
  dsimp only
  rw [h1]
  rfl

theorem C5_pull_error_keeps_state_witness :
    exEnvPullErr.pullOrClone = Except.error "vcs pull error"
    ∧ updateAndReindex exEnvPullErr { idx := 0, revision := "r0" } "r0" =
        ("r0", false, { idx := 0, revision := "r0" }) :=
  ⟨rfl, (C5_pull_error_keeps_state exEnvPullErr { idx := 0, revision := "r0" }
    "r0" "vcs pull error" rfl).1⟩

/-- C6: for a searcher with a repository descriptor, `Update` returns
false iff push updates are disabled; otherwise it returns true and
enqueues the timestamp iff the capacity-1 mailbox is empty, and any
number of `Update` calls leaves at most one pending event in the
mailbox (updates coalesce). -/
theorem C6_update_contract (s : Searcher) (r : Repo) (now : Nat)
    (h : s.repo = some r) :
    ((s.Update now).1 = false ↔ r.pushUpdatesEnabled = false)
    ∧ (s.Update now).2.updateCh =
        (if r.pushUpdatesEnabled = true ∧ s.updateCh = [] then s.updateCh ++ [now]
         else s.updateCh)
    ∧ ∀ ts : List Nat, s.updateCh.length ≤ 1 →
        (updateMany s ts).updateCh.length ≤ 1 := by
  refine ⟨update_fst_eq_false_iff h, ?_, fun ts hb => updateMany_mailbox_bound ts s hb⟩
  unfold Searcher.Update
  rw [h]
  dsimp only
  by_cases hp : r.pushUpdatesEnabled = false
  · rw [if_pos hp]
    dsimp only
    rw [if_neg fun hc => by rw [hp] at hc; exact Bool.noConfusion hc.1]
  · rw [if_neg hp]
    have hpt : r.pushUpdatesEnabled = true := Bool.not_eq_false _ |>.mp hp
    show trySend 1 s.updateCh now = _
    unfold trySend
    by_cases hl : s.updateCh = []
    · rw [if_pos (by rw [hl]; decide), if_pos ⟨hpt, hl⟩]
    · rw [if_neg fun hc => hl (List.length_eq_zero.mp (Nat.lt_one_iff.mp hc)),
        if_neg fun hc => hl hc.2]

theorem C6_update_contract_witness :
    exSearcherA.repo = some exRepoPush
    ∧ ((exSearcherA.Update 5).1 = false ↔ exRepoPush.pushUpdatesEnabled = false) :=
  ⟨rfl, (C6_update_contract exSearcherA exRepoPush 5 rfl).1⟩

/-- C7: the effective lines-of-context of a search request lies in
[0, 20]: an unparsable (or absent) ctx value yields the default 2, a
parsed value above 20 is clamped to 20, and any other parsed value is
used as-is. -/
theorem C7_lines_of_context_clamped (m : SearcherMap) (f : SearchForm) :
    (searchParsedOpts m f).1.LinesOfContext ≤ 20
    ∧ (goParseUint f.ctx 54 = none → (searchParsedOpts m f).1.LinesOfContext = 2)
    ∧ ∀ n, goParseUint f.ctx 54 = some n →
        (20 < n → (searchParsedOpts m f).1.LinesOfContext = 20)
        ∧ (n ≤ 20 → (searchParsedOpts m f).1.LinesOfContext = n) := by
  rw [searchParsedOpts_loc]
  unfold parseAsUintValue maxLinesOfContext defaultLinesOfContext
  cases hp : goParseUint f.ctx 54 with
  | none =>
    dsimp only
    exact ⟨by omega, fun _ => rfl, fun n hn => Option.noConfusion hn⟩
  | some iv =>
    dsimp only
    have hinner : ¬((0 : Nat) ≠ 0 ∧ iv < 0) := fun hc => absurd rfl hc.1
    rw [if_neg hinner]
    by_cases h20 : 20 < iv
    · rw [if_pos ⟨by decide, h20⟩]
      refine ⟨by omega, fun hn => Option.noConfusion hn, fun n hn => ?_⟩
      obtain rfl : iv = n := Option.some_injective _ hn
      exact ⟨fun _ => rfl, fun hle => absurd h20 (not_lt.mpr hle)⟩
    · rw [if_neg fun hc => h20 hc.2]
      refine ⟨by omega, fun hn => Option.noConfusion hn, fun n hn => ?_⟩
      obtain rfl : iv = n := Option.some_injective _ hn
      exact ⟨fun hgt => absurd hgt h20, fun _ => rfl⟩

theorem C7_lines_of_context_clamped_witness :
    goParseUint "25" 54 = some 25
    ∧ 20 < 25
    ∧ (searchParsedOpts exMapA (exForm "*" "" "25")).1.LinesOfContext = 20 :=
  ⟨rfl, by omega,
    ((C7_lines_of_context_clamped exMapA (exForm "*" "" "25")).2.2 25 rfl).1 (by omega)⟩

/-- C8: in `parseAsUintValue` with a nonzero minimum, a parsed value
at or above the minimum goes through the normal maximum clamp, while
a parsed value strictly below the minimum returns the maximum (not
the minimum). -/
theorem C8_below_min_returns_max (sv : String) (mn mx df iv : Nat)
    (hmn : mn ≠ 0) (hp : goParseUint sv 54 = some iv) :
    (iv < mn → parseAsUintValue sv mn mx df = mx)
    ∧ (mn ≤ iv → parseAsUintValue sv mn mx df =
        if mx ≠ 0 ∧ mx < iv then mx else iv) := by
  unfold parseAsUintValue
  rw [hp]
  dsimp only
  constructor
  · intro hlt
    by_cases hmx : mx ≠ 0 ∧ mx < iv
    · rw [if_pos hmx]
    · rw [if_neg hmx, if_pos ⟨hmn, hlt⟩]
  · intro hge
    have hmin : ¬(mn ≠ 0 ∧ iv < mn) := fun hc => absurd hc.2 (not_lt.mpr hge)
    by_cases hmx : mx ≠ 0 ∧ mx < iv
    · rw [if_pos hmx, if_pos hmx]
    · rw [if_neg hmx, if_neg hmin, if_neg hmx]

theorem C8_below_min_returns_max_witness :
    (3 ≠ 0) ∧ goParseUint "2" 54 = some 2 ∧ 2 < 3
    ∧ parseAsUintValue "2" 3 10 7 = 10 :=
  ⟨by decide, rfl, by omega,
    (C8_below_min_returns_max "2" 3 10 7 2 (by decide) rfl).1 (by omega)⟩

/-- C9: the aggregation of `searchAll` aborts at the first errored
per-repository result, returning only that error and discarding all
results collected so far, and the search handler then writes just the
error body with HTTP 200. -/
theorem C9_first_error_discards_results
    (pre rest : List (String × Except String SearchResponse)) (repo e : String)
    (hpre : ∀ p ∈ pre, ∃ r, p.2 = Except.ok r) :
    searchAll (pre ++ (repo, Except.error e) :: rest) = Except.error e
    ∧ ∀ (m : SearcherMap) (f : SearchForm),
        ¬ m.length ≤ 0 → ¬ (trimSpace f.q).length ≤ 0 →
        searchHandler (some m) f (pre ++ (repo, Except.error e) :: rest) =
          .jsonError 200 e := by
  have h1 : searchAll (pre ++ (repo, Except.error e) :: rest) = Except.error e :=
    searchAllLoop_first_error pre hpre [] 0
  refine ⟨h1, fun m f hm hq => ?_⟩
  have hcr : checkReady (some m) = true := by
    unfold checkReady
    dsimp only
    rw [if_neg hm]
  unfold searchHandler
  rw [hcr, if_neg (show ¬(true = false) from fun hc => Bool.noConfusion hc)]
  dsimp only
  rw [if_neg hq, h1]

theorem C9_first_error_discards_results_witness :
    (∀ p ∈ exResps, ∃ r, p.2 = Except.ok r)
    ∧ searchAll (exResps ++ ("b", Except.error "boom") :: []) = Except.error "boom"
    ∧ searchHandler (some exMapA) (exForm "*" "" "")
        (exResps ++ ("b", Except.error "boom") :: []) = .jsonError 200 "boom" := by
  have hpre : ∀ p ∈ exResps, ∃ r, p.2 = Except.ok r := by
    intro p hp
    simp only [exResps, List.mem_singleton] at hp
    subst hp
    exact ⟨exResp, rfl⟩
  exact ⟨hpre, (C9_first_error_discards_results exResps [] "b" "boom" hpre).1,
    (C9_first_error_discards_results exResps [] "b" "boom" hpre).2 exMapA
      (exForm "*" "" "") (by decide) (by decide)⟩

/-- C10: a nil and an empty searcher map are both "not ready", and in
that state every one of the four API endpoints replies with the
"Server is not ready" error at HTTP status 200 whatever the request
is. -/
theorem C10_empty_map_not_ready :
    checkReady none = checkReady (some [])
    ∧ reposHandler none = .jsonError 200 notReadyMsg
    ∧ reposHandler (some []) = .jsonError 200 notReadyMsg
    ∧ (∀ (f : SearchForm) (resps : List (String × Except String SearchResponse)),
        searchHandler none f resps = .jsonError 200 notReadyMsg
        ∧ searchHandler (some []) f resps = .jsonError 200 notReadyMsg)
    ∧ (∀ (repo : String) (g : Searcher → String → String),
        excludesHandler none repo g = .jsonError 200 notReadyMsg
        ∧ excludesHandler (some []) repo g = .jsonError 200 notReadyMsg)
    ∧ ∀ method reposV : String,
        updateHandler none method reposV = .jsonError 200 notReadyMsg
        ∧ updateHandler (some []) method reposV = .jsonError 200 notReadyMsg := by
  exact ⟨rfl, rfl, rfl, fun f resps => ⟨rfl, rfl⟩, fun repo g => ⟨rfl, rfl⟩,
    fun method reposV => ⟨rfl, rfl⟩⟩

end Hound
